import Mathlib

/-!
Shallow embedding of src/axe_game.cpp (the axe_game repository).

Conventions of the embedding:
* C++ `int` pixel coordinates become `ℤ` (no overflow is reachable at the
  magnitudes involved, and the source performs no wrap-around arithmetic).
* C++ `float` speeds and timers become `ℚ`; float literals such as `1.1f`
  are taken at their nominal rational values.
* `static_cast<int>` applied to a nonnegative-or-negative float is
  truncation toward zero, embedded as `truncQ`.
* `GetFrameTime()` is sampled once per frame; the per-frame input snapshot
  (held keys, pressed keys, elapsed time) is the `Input` structure.
* Rendering calls (`Draw`, `DrawText`, ...) have no effect on game state
  and are dropped.
-/

namespace AxeGame

/-- Truncation of a rational toward zero, the semantics of the C++
`static_cast<int>` conversions at src/axe_game.cpp lines 25, 67 and 68. -/
def truncQ (q : ℚ) : ℤ := if 0 ≤ q then ⌊q⌋ else -⌊-q⌋

/-- Window width constant, src/axe_game.cpp line 112. -/
def screenWidth : ℤ := 800

/-- Window height constant, src/axe_game.cpp line 113. -/
def screenHeight : ℤ := 450

/-- Player struct, src/axe_game.cpp lines 5 to 43.  The display color has no
effect on the core logic and is dropped. -/
structure Player where
  x : ℤ
  y : ℤ
  radius : ℤ
deriving DecidableEq

/-- Axe struct, src/axe_game.cpp lines 48 to 82.  The display color has no
effect on the core logic and is dropped. -/
structure Axe where
  x : ℤ
  y : ℤ
  length : ℤ
  speedX : ℚ
  speedY : ℚ
deriving DecidableEq

/-- Per-frame input and timing snapshot read from the external
rendering/input collaborator (raylib): elapsed seconds and the key
queries made by src/axe_game.cpp.  Each of the four direction flags
stands for the corresponding `IsKeyDown` disjunction. -/
structure Input where
  dt : ℚ
  right : Bool
  left : Bool
  up : Bool
  down : Bool
  spacePressed : Bool
  rPressed : Bool
deriving DecidableEq

/-- Embedding of Player::Move, src/axe_game.cpp lines 18 to 42.
The four if statements run in source order (D/RIGHT, A/LEFT, W/UP,
S/DOWN); the second x test sees the x already updated by the first,
exactly as the sequential C++ does. -/
def Player.move (p : Player) (W H : ℤ) (speed dt : ℚ)
    (right left up down : Bool) : Player :=
  let m := truncQ (speed * dt)
  let x1 := if right ∧ p.x < W - p.radius then p.x + m else p.x
  let x2 := if left ∧ x1 > p.radius then x1 - m else x1
  let y1 := if up ∧ p.y > p.radius then p.y - m else p.y
  let y2 := if down ∧ y1 < H - p.radius then y1 + m else y1
  { p with x := x2, y := y2 }

/-- Embedding of Axe::Move, src/axe_game.cpp lines 65 to 81: displace
both axes, then flip a speed sign when the moved bounding box crosses
the corresponding screen edge. -/
def Axe.move (a : Axe) (W H : ℤ) (dt : ℚ) : Axe :=
  let x := a.x + truncQ (a.speedX * dt)
  let y := a.y + truncQ (a.speedY * dt)
  let sx := if x + a.length > W ∨ x < 0 then -a.speedX else a.speedX
  let sy := if y + a.length > H ∨ y < 0 then -a.speedY else a.speedY
  { a with x := x, y := y, speedX := sx, speedY := sy }

/-- Modelled from the spec: the raylib routine CheckCollisionCircleRec, called at
src/axe_game.cpp line 95, is external library code not present in this
repository.  Following section 4.1 of the spec, the circle center is
clamped to the rectangle bounds to find the nearest rectangle point and
collision holds when the distance from that point to the center is at
most the radius (boundary-inclusive), stated with squared distances. -/
def checkCollisionCircleRec (cx cy r rx ry w h : ℚ) : Bool :=
  let nx := max rx (min cx (rx + w))
  let ny := max ry (min cy (ry + h))
  decide ((cx - nx) * (cx - nx) + (cy - ny) * (cy - ny) ≤ r * r)

/-- Embedding of CheckCollision, src/axe_game.cpp lines 87 to 97: cast
the integer player and axe fields to the float (here rational) arguments
of the circle-vs-rectangle test. -/
def CheckCollision (p : Player) (a : Axe) : Bool :=
  checkCollisionCircleRec (p.x : ℚ) (p.y : ℚ) (p.radius : ℚ)
    (a.x : ℚ) (a.y : ℚ) (a.length : ℚ) (a.length : ℚ)

/-- GameState enum, src/axe_game.cpp lines 103 to 107. -/
inductive GameState where
  | MENU : GameState
  | PLAYING : GameState
  | GAME_OVER : GameState
deriving DecidableEq

/-- Whole mutable state of main, src/axe_game.cpp lines 122 to 141. -/
structure GameSt where
  player : Player
  axe : Axe
  currentState : GameState
  score : ℤ
  highScore : ℤ
  scoreTimer : ℚ
  lastSpeedIncreaseScore : ℤ
  collisionDetected : Bool
deriving DecidableEq

/-- Score tracker step, src/axe_game.cpp lines 180 to 186: accumulate
dt, and on reaching one second add one point and subtract exactly one
second (a single if, not a loop). -/
def scoreStep (score : ℤ) (timer dt : ℚ) : ℤ × ℚ :=
  let t := timer + dt
  if t ≥ 1 then (score + 1, t - 1) else (score, t)

/-- Difficulty scaler step, src/axe_game.cpp lines 190 to 201: at a new
multiple-of-ten score, multiply each axis speed by 1.1 when that signed
speed is below its cap, then record the score in the checkpoint.
Returns (new speedX, new speedY, new checkpoint). -/
def scaleStep (score checkpoint : ℤ) (sx sy : ℚ) : ℚ × ℚ × ℤ :=
  if score > checkpoint ∧ score % 10 = 0 then
    let sx2 := if sx < 300 then sx * (11 / 10) else sx
    let sy2 := if sy < 400 then sy * (11 / 10) else sy
    (sx2, sy2, score)
  else
    (sx, sy, checkpoint)

/-- Round reset, the shared bodies at src/axe_game.cpp lines 161 to 170
(MENU, on SPACE) and lines 238 to 247 (GAME_OVER, on R): recenter the
player, restore the axe start position and speeds, zero the score,
timer and checkpoint, and enter PLAYING.  The high score and the fields
the C++ does not assign (radius, length, collisionDetected) are kept. -/
def resetRound (g : GameSt) : GameSt :=
  { g with
    player := { g.player with x := screenWidth / 2, y := screenHeight / 2 },
    axe := { g.axe with x := 300, y := 0, speedX := 150, speedY := 200 },
    score := 0,
    scoreTimer := 0,
    lastSpeedIncreaseScore := 0,
    currentState := GameState.PLAYING }

/-- One iteration of the main loop body, src/axe_game.cpp lines 153 to
250, restricted to its state effects (drawing dropped).  MENU: start on
SPACE.  PLAYING: player motion, axe motion, score tracking, difficulty
scaling, then collision test on the post-move positions.  GAME_OVER:
reconcile the high score every frame, then restart on R. -/
def frame (g : GameSt) (i : Input) : GameSt :=
  match g.currentState with
  | GameState.MENU =>
      if i.spacePressed then resetRound g else g
  | GameState.PLAYING =>
      let p := g.player.move screenWidth screenHeight 300 i.dt
        i.right i.left i.up i.down
      let a := g.axe.move screenWidth screenHeight i.dt
      let st := scoreStep g.score g.scoreTimer i.dt
      let sc := scaleStep st.1 g.lastSpeedIncreaseScore a.speedX a.speedY
      let a2 : Axe := { a with speedX := sc.1, speedY := sc.2.1 }
      let coll := CheckCollision p a2
      { g with
        player := p,
        axe := a2,
        score := st.1,
        scoreTimer := st.2,
        lastSpeedIncreaseScore := sc.2.2,
        collisionDetected := coll,
        currentState := if coll then GameState.GAME_OVER else GameState.PLAYING }
  | GameState.GAME_OVER =>
      let hs := if g.score > g.highScore then g.score else g.highScore
      let g1 := { g with highScore := hs }
      if i.rPressed then resetRound g1 else g1

/-- Program start state, src/axe_game.cpp lines 123 to 141. -/
def initialState : GameSt :=
  { player := { x := screenWidth / 2, y := screenHeight / 2, radius := 25 },
    axe := { x := 300, y := 0, length := 50, speedX := 150, speedY := 200 },
    currentState := GameState.MENU,
    score := 0,
    highScore := 0,
    scoreTimer := 0,
    lastSpeedIncreaseScore := 0,
    collisionDetected := false }

/-- Iterated main loop: fold `frame` over a list of per-frame inputs. -/
def run (g : GameSt) : List Input → GameSt
  | [] => g
  | i :: is => run (frame g i) is

/-- Scores observed while sitting in the GAME_OVER state along a run:
one entry per frame whose pre-state is GAME_OVER.  These are exactly the
round results the high-score reconciliation at src/axe_game.cpp lines
225 to 227 ever sees. -/
def goScores (g : GameSt) : List Input → List ℤ
  | [] => []
  | i :: is =>
      (if g.currentState = GameState.GAME_OVER then [g.score] else [])
        ++ goScores (frame g i) is

/-- Iterated score tracker, folding `scoreStep` over a list of frame
times. -/
def runScore (s : ℤ) (t : ℚ) : List ℚ → ℤ × ℚ
  | [] => (s, t)
  | dt :: dts => runScore (scoreStep s t dt).1 (scoreStep s t dt).2 dts

/-- Concrete PLAYING state used by counterexamples and witnesses: the
program start state with the round already started. -/
def playingState : GameSt :=
  { initialState with currentState := GameState.PLAYING }

/-- Concrete PLAYING state whose player sits one pixel inside the right
boundary test of Player::Move. -/
def nearEdgeState : GameSt :=
  { playingState with player := { x := 774, y := 225, radius := 25 } }

/-- Concrete input frame: one sixtieth of a second with only the right
direction held. -/
def stepInput : Input :=
  { dt := 1 / 60, right := true, left := false, up := false, down := false,
    spacePressed := false, rPressed := false }

/-- Concrete input frame with no key held. -/
def idleInput : Input :=
  { dt := 1 / 60, right := false, left := false, up := false, down := false,
    spacePressed := false, rPressed := false }

/-- Concrete slow input frame: with dt of 1/600 second the player
displacement 300 * dt is below one pixel. -/
def slowInput : Input :=
  { dt := 1 / 600, right := true, left := true, up := true, down := true,
    spacePressed := false, rPressed := false }

/-- Concrete axe one step before the bottom bounce used by witnesses. -/
def lowAxe : Axe :=
  { x := 300, y := 440, length := 50, speedX := 150, speedY := 200 }

/-! Helper lemmas shared by several claim theorems. -/

theorem truncQ_eq_zero (q : ℚ) (h1 : -1 < q) (h2 : q < 1) : truncQ q = 0 := by
  unfold truncQ
  split_ifs with h
  · exact Int.floor_eq_zero_iff.mpr ⟨h, h2⟩
  · have h0 : 0 ≤ -q := by linarith
    have h1q : -q < 1 := by linarith
    rw [Int.floor_eq_zero_iff.mpr ⟨h0, h1q⟩]
    rfl

theorem truncQ_nonneg (q : ℚ) (h : 0 ≤ q) : 0 ≤ truncQ q := by
  unfold truncQ
  rw [if_pos h]
  exact Int.floor_nonneg.mpr h

theorem playerMove_bounds (p : Player) (W H : ℤ) (speed dt : ℚ)
    (R L U D : Bool) (hm : 0 ≤ truncQ (speed * dt))
    (hx1 : p.radius ≤ p.x) (hx2 : p.x ≤ W - p.radius)
    (hy1 : p.radius ≤ p.y) (hy2 : p.y ≤ H - p.radius) :
    p.radius - truncQ (speed * dt) ≤ (p.move W H speed dt R L U D).x ∧
    (p.move W H speed dt R L U D).x ≤ W - p.radius + truncQ (speed * dt) ∧
    p.radius - truncQ (speed * dt) ≤ (p.move W H speed dt R L U D).y ∧
    (p.move W H speed dt R L U D).y ≤ H - p.radius + truncQ (speed * dt) := by
  simp only [Player.move]
  split_ifs <;> refine ⟨?_, ?_, ?_, ?_⟩ <;> omega

theorem frame_playing_player (g : GameSt) (i : Input)
    (h : g.currentState = GameState.PLAYING) :
    (frame g i).player =
      g.player.move screenWidth screenHeight 300 i.dt i.right i.left i.up i.down := by
  obtain ⟨p, a, cs, sc, hs, st, last, cd⟩ := g
  dsimp only at h
  subst h
  rfl

theorem frame_highScore (g : GameSt) (i : Input) :
    (frame g i).highScore =
      if g.currentState = GameState.GAME_OVER then max g.highScore g.score
      else g.highScore := by
  obtain ⟨p, a, cs, sc, hs, st, last, cd⟩ := g
  cases cs
  case MENU =>
    by_cases hsp : i.spacePressed = true <;> simp [frame, hsp, resetRound]
  case PLAYING => simp [frame]
  case GAME_OVER =>
    have hmax : (if sc > hs then sc else hs) = max hs sc := by
      rcases lt_or_le hs sc with h | h
      · rw [if_pos h, max_eq_right h.le]
      · rw [if_neg (not_lt.mpr h), max_eq_left h]
    by_cases hr : i.rPressed = true <;> simp [frame, hr, resetRound, hmax]

theorem run_highScore (is : List Input) :
    ∀ g : GameSt, (run g is).highScore = (goScores g is).foldl max g.highScore := by
  induction is with
  | nil => intro g; rfl
  | cons i is ih =>
      intro g
      rw [run, goScores, List.foldl_append, ih (frame g i)]
      congr 1
      by_cases hgo : g.currentState = GameState.GAME_OVER
      · simp [hgo, frame_highScore g i]
      · simp [hgo, frame_highScore g i]

theorem clamp_flip (p q u : ℚ) (h : p ≤ q) : max p (min u q) = min q (max u p) := by
  rcases le_total u p with h1 | h1
  · rw [min_eq_left (h1.trans h), max_eq_left h1, max_eq_right h1, min_eq_right h]
  · rcases le_total u q with h2 | h2
    · rw [min_eq_left h2, max_eq_right h1, max_eq_left h1, min_eq_right h2]
    · rw [min_eq_right h2, max_eq_right h, max_eq_left (h.trans h2), min_eq_left h2]

theorem neg_clamp (rx w cx : ℚ) (hw : 0 ≤ w) :
    max (-(rx + w)) (min (-cx) (-(rx + w) + w)) = -(max rx (min cx (rx + w))) := by
  have h1 : -(rx + w) + w = -rx := by ring
  rw [h1, clamp_flip _ _ _ (by linarith : -(rx + w) ≤ -rx)]
  rw [← min_neg_neg, ← max_neg_neg]

/-! Claim theorems. -/

/-- C10: per-frame displacement is the integer truncation of speed times
dt, so any sub-pixel displacement is zero: a truncated rational strictly
between -1 and 1 is 0, a PLAYING frame with 0 ≤ 300 * dt < 1 leaves the
player exactly where it was even with keys held, and an axe motion step
whose per-axis displacements are both sub-pixel leaves the axe position
unchanged. -/
theorem subpixel_no_displacement :
    (∀ q : ℚ, -1 < q → q < 1 → truncQ q = 0) ∧
    (∀ (g : GameSt) (i : Input), g.currentState = GameState.PLAYING →
        0 ≤ i.dt → 300 * i.dt < 1 → (frame g i).player = g.player) ∧
    (∀ (W H : ℤ) (a : Axe) (dt : ℚ),
        -1 < a.speedX * dt → a.speedX * dt < 1 →
        -1 < a.speedY * dt → a.speedY * dt < 1 →
        (a.move W H dt).x = a.x ∧ (a.move W H dt).y = a.y) := by
  refine ⟨truncQ_eq_zero, ?_, ?_⟩
  · intro g i hst hdt hlt
    have h0 : (0 : ℚ) ≤ 300 * i.dt := by positivity
    have hm : truncQ (300 * i.dt) = 0 := truncQ_eq_zero _ (by linarith) hlt
    rw [frame_playing_player g i hst]
    simp [Player.move, hm]
  · intro W H a dt h1 h2 h3 h4
    constructor <;>
      simp [Axe.move, truncQ_eq_zero _ h1 h2, truncQ_eq_zero _ h3 h4]

/-- Witness for C10 at a concrete slow frame. -/
theorem subpixel_no_displacement_witness :
    playingState.currentState = GameState.PLAYING ∧ 0 ≤ slowInput.dt ∧
    300 * slowInput.dt < 1 ∧
    (frame playingState slowInput).player = playingState.player :=
  ⟨rfl, by norm_num [slowInput], by norm_num [slowInput],
    subpixel_no_displacement.2.1 playingState slowInput rfl
      (by norm_num [slowInput]) (by norm_num [slowInput])⟩

/-- C3: when the difficulty rule fires (score above the checkpoint and a
multiple of ten) the checkpoint is immediately set to the score, and a
second application at the same score changes nothing. -/
theorem scaleStep_fires_once (score checkpoint : ℤ) (sx sy : ℚ)
    (h1 : checkpoint < score) (h2 : score % 10 = 0) :
    (scaleStep score checkpoint sx sy).2.2 = score ∧
    scaleStep score (scaleStep score checkpoint sx sy).2.2
        (scaleStep score checkpoint sx sy).1 (scaleStep score checkpoint sx sy).2.1 =
      scaleStep score checkpoint sx sy := by
  have hc : score > checkpoint ∧ score % 10 = 0 := ⟨h1, h2⟩
  constructor
  · simp [scaleStep, hc]
  · simp [scaleStep, hc, lt_irrefl]

/-- Witness for C3 at score 10 with checkpoint 0. -/
theorem scaleStep_fires_once_witness :
    (0 : ℤ) < 10 ∧ (10 : ℤ) % 10 = 0 ∧ (scaleStep 10 0 150 200).2.2 = 10 :=
  ⟨by norm_num, by norm_num,
    (scaleStep_fires_once 10 0 150 200 (by norm_num) (by norm_num)).1⟩

/-- C4: the score tracker preserves score plus timer plus dt exactly (so
the sub-second remainder is never lost), increments by one and subtracts
exactly one when the accumulated timer reaches one second, leaves the
score alone below one second, and over any sequence of frames the total
equals the exact sum of the elapsed times. -/
theorem scoreStep_spec :
    (∀ (s : ℤ) (t dt : ℚ),
        ((scoreStep s t dt).1 : ℚ) + (scoreStep s t dt).2 = (s : ℚ) + t + dt) ∧
    (∀ (s : ℤ) (t dt : ℚ), 1 ≤ t + dt → scoreStep s t dt = (s + 1, t + dt - 1)) ∧
    (∀ (s : ℤ) (t dt : ℚ), t + dt < 1 → scoreStep s t dt = (s, t + dt)) ∧
    (∀ (s : ℤ) (t : ℚ) (dts : List ℚ),
        ((runScore s t dts).1 : ℚ) + (runScore s t dts).2 = (s : ℚ) + t + dts.sum) := by
  have key : ∀ (s : ℤ) (t dt : ℚ),
      ((scoreStep s t dt).1 : ℚ) + (scoreStep s t dt).2 = (s : ℚ) + t + dt := by
    intro s t dt
    simp only [scoreStep]
    split_ifs with h
    · push_cast
      ring
    · ring
  refine ⟨key, ?_, ?_, ?_⟩
  · intro s t dt h
    simp only [scoreStep]
    rw [if_pos (show t + dt ≥ 1 from h)]
  · intro s t dt h
    simp only [scoreStep]
    rw [if_neg (show ¬t + dt ≥ 1 from not_le.mpr h)]
  · intro s t dts
    induction dts generalizing s t with
    | nil => simp [runScore]
    | cons dt dts ih =>
        rw [runScore, ih, key]
        simp [List.sum_cons]
        ring

/-- Witness for C4 at a concrete timer crossing. -/
theorem scoreStep_spec_witness :
    (1 : ℚ) ≤ 1 / 2 + 3 / 4 ∧ scoreStep 0 (1 / 2) (3 / 4) = (1, 1 / 4) := by
  refine ⟨by norm_num, ?_⟩
  rw [scoreStep_spec.2.1 0 (1 / 2) (3 / 4) (by norm_num)]
  norm_num [Prod.ext_iff]

/-- C2 is violated by the code: the scaler tests the signed speed
against the cap before multiplying and never clamps afterwards.  At the
reachable speed 150 * 1.1 ^ 7 = 292.307565 one more milestone multiplies
past the 300 cap, and a negative horizontal speed (after a bounce)
always passes the test, so its magnitude 300 grows to 330, above the
cap.  This theorem evaluates the embedded scaler at those inputs. -/
theorem scaleStep_exceeds_cap :
    300 < (scaleStep 80 70 (2923075650 / 10000000) 200).1 ∧
    (scaleStep 20 10 (-300) 200).1 = -330 ∧
    300 < -(scaleStep 20 10 (-300) 200).1 := by
  norm_num [scaleStep]

/-- C6: an axe motion step displaces each axis by the truncated product
of speed and dt, keeps the side length, flips the sign of an axis speed
exactly when the moved bounding box crosses that axis bound (leading
edge past the arena dimension or trailing edge below zero), and never
changes a speed magnitude. -/
theorem axeMove_bounce (W H : ℤ) (a : Axe) (dt : ℚ) :
    (a.move W H dt).x = a.x + truncQ (a.speedX * dt) ∧
    (a.move W H dt).y = a.y + truncQ (a.speedY * dt) ∧
    (a.move W H dt).length = a.length ∧
    ((a.move W H dt).x + a.length > W ∨ (a.move W H dt).x < 0 →
        (a.move W H dt).speedX = -a.speedX) ∧
    (¬((a.move W H dt).x + a.length > W ∨ (a.move W H dt).x < 0) →
        (a.move W H dt).speedX = a.speedX) ∧
    |(a.move W H dt).speedX| = |a.speedX| ∧
    ((a.move W H dt).y + a.length > H ∨ (a.move W H dt).y < 0 →
        (a.move W H dt).speedY = -a.speedY) ∧
    (¬((a.move W H dt).y + a.length > H ∨ (a.move W H dt).y < 0) →
        (a.move W H dt).speedY = a.speedY) ∧
    |(a.move W H dt).speedY| = |a.speedY| := by
  simp only [Axe.move]
  split_ifs with h1 h2 h2 <;>
    refine ⟨?_, ?_, ?_, ?_, ?_, ?_, ?_, ?_, ?_⟩ <;>
    simp_all [abs_neg]

/-- Witness for C6: the axe one pixel row before the floor crosses it
and the vertical speed flips to -200. -/
theorem axeMove_bounce_witness :
    ((lowAxe.move 800 450 (1 / 10)).y + lowAxe.length > 450 ∨
      (lowAxe.move 800 450 (1 / 10)).y < 0) ∧
    (lowAxe.move 800 450 (1 / 10)).speedY = -200 := by
  have hy : (lowAxe.move 800 450 (1 / 10)).y = 460 := by
    norm_num [Axe.move, lowAxe, truncQ]
  have hcond : (lowAxe.move 800 450 (1 / 10)).y + lowAxe.length > 450 ∨
      (lowAxe.move 800 450 (1 / 10)).y < 0 := by
    rw [hy]
    norm_num [lowAxe]
  refine ⟨hcond, ?_⟩
  have h := (axeMove_bounce 800 450 lowAxe (1 / 10)).2.2.2.2.2.2.1 hcond
  rw [h]
  norm_num [lowAxe]

/-- C1 as stated is violated by the code: Player::Move tests the
pre-move position against the radius-adjusted bound and then applies the
full displacement, so a player one pixel inside the test can overshoot.
Concretely, at x = 774 (within 25 ≤ x ≤ 775) with the right key held and
dt = 1/60 (displacement 5 pixels), the post-move x is 779 > 775. -/
theorem playing_player_bound_cex :
    nearEdgeState.currentState = GameState.PLAYING ∧
    0 ≤ stepInput.dt ∧
    nearEdgeState.player.radius ≤ nearEdgeState.player.x ∧
    nearEdgeState.player.x ≤ screenWidth - nearEdgeState.player.radius ∧
    nearEdgeState.player.radius ≤ nearEdgeState.player.y ∧
    nearEdgeState.player.y ≤ screenHeight - nearEdgeState.player.radius ∧
    (frame nearEdgeState stepInput).player.x = 779 ∧
    ¬(frame nearEdgeState stepInput).player.x ≤
        screenWidth - nearEdgeState.player.radius := by
  have hx : (frame nearEdgeState stepInput).player.x = 779 := by
    rw [frame_playing_player nearEdgeState stepInput rfl]
    norm_num [Player.move, nearEdgeState, playingState, initialState, stepInput,
      screenWidth, screenHeight, truncQ]
  refine ⟨rfl, by norm_num [stepInput], ?_, ?_, ?_, ?_, hx, ?_⟩
  · norm_num [nearEdgeState, playingState, initialState]
  · norm_num [nearEdgeState, playingState, initialState, screenWidth]
  · norm_num [nearEdgeState, playingState, initialState]
  · norm_num [nearEdgeState, playingState, initialState, screenHeight]
  · rw [hx]
    norm_num [nearEdgeState, playingState, initialState, screenWidth]

/-- C1 amended: after the player motion of a PLAYING frame that starts
inside the claimed bounds, each coordinate stays within those bounds
widened by the truncated displacement m = truncQ(300 * dt) of that frame;
the overshoot past the spec bound is at most one frame of displacement. -/
theorem playing_player_overshoot_bound (g : GameSt) (i : Input)
    (hst : g.currentState = GameState.PLAYING) (hdt : 0 ≤ i.dt)
    (hx1 : g.player.radius ≤ g.player.x)
    (hx2 : g.player.x ≤ screenWidth - g.player.radius)
    (hy1 : g.player.radius ≤ g.player.y)
    (hy2 : g.player.y ≤ screenHeight - g.player.radius) :
    g.player.radius - truncQ (300 * i.dt) ≤ (frame g i).player.x ∧
    (frame g i).player.x ≤ screenWidth - g.player.radius + truncQ (300 * i.dt) ∧
    g.player.radius - truncQ (300 * i.dt) ≤ (frame g i).player.y ∧
    (frame g i).player.y ≤ screenHeight - g.player.radius + truncQ (300 * i.dt) := by
  have hm : 0 ≤ truncQ (300 * i.dt) := truncQ_nonneg _ (by positivity)
  rw [frame_playing_player g i hst]
  exact playerMove_bounds g.player screenWidth screenHeight 300 i.dt
    i.right i.left i.up i.down hm hx1 hx2 hy1 hy2

/-- Witness for the amended C1 at the concrete near-edge state. -/
theorem playing_player_overshoot_bound_witness :
    nearEdgeState.currentState = GameState.PLAYING ∧ 0 ≤ stepInput.dt ∧
    (nearEdgeState.player.radius - truncQ (300 * stepInput.dt) ≤
        (frame nearEdgeState stepInput).player.x ∧
      (frame nearEdgeState stepInput).player.x ≤
        screenWidth - nearEdgeState.player.radius + truncQ (300 * stepInput.dt) ∧
      nearEdgeState.player.radius - truncQ (300 * stepInput.dt) ≤
        (frame nearEdgeState stepInput).player.y ∧
      (frame nearEdgeState stepInput).player.y ≤
        screenHeight - nearEdgeState.player.radius + truncQ (300 * stepInput.dt)) :=
  ⟨rfl, by norm_num [stepInput],
    playing_player_overshoot_bound nearEdgeState stepInput rfl
      (by norm_num [stepInput])
      (by norm_num [nearEdgeState, playingState])
      (by norm_num [nearEdgeState, playingState, screenWidth])
      (by norm_num [nearEdgeState, playingState])
      (by norm_num [nearEdgeState, playingState, screenHeight])⟩

/-- C5: the high score never decreases on any frame, changes only on
frames processed in GAME_OVER (where it becomes the maximum of itself
and the round score), and along every run from the program start it
equals the maximum, starting from 0, of the scores observed at
GAME_OVER frames, which are the completed round results. -/
theorem highScore_lifecycle :
    (∀ (g : GameSt) (i : Input), g.highScore ≤ (frame g i).highScore) ∧
    (∀ (g : GameSt) (i : Input), g.currentState ≠ GameState.GAME_OVER →
        (frame g i).highScore = g.highScore) ∧
    (∀ (g : GameSt) (i : Input), g.currentState = GameState.GAME_OVER →
        (frame g i).highScore = max g.highScore g.score) ∧
    (∀ is : List Input,
        (run initialState is).highScore = (goScores initialState is).foldl max 0) := by
  refine ⟨?_, ?_, ?_, ?_⟩
  · intro g i
    rw [frame_highScore]
    split_ifs
    · exact le_max_left _ _
    · exact le_refl _
  · intro g i h
    rw [frame_highScore, if_neg h]
  · intro g i h
    rw [frame_highScore, if_pos h]
  · intro is
    exact run_highScore is initialState

/-- Witness for C5: a MENU frame does not touch the high score. -/
theorem highScore_lifecycle_witness :
    initialState.currentState ≠ GameState.GAME_OVER ∧
    (frame initialState idleInput).highScore = initialState.highScore :=
  ⟨by decide, highScore_lifecycle.2.1 initialState idleInput (by decide)⟩

/-- C8: the state enumeration has exactly the three values MENU,
PLAYING and GAME_OVER (the GameState type), the start state is MENU,
and every frame either keeps the state or performs one of the three
legal transitions: MENU to PLAYING on SPACE, PLAYING to GAME_OVER on a
detected collision, GAME_OVER to PLAYING on R. -/
theorem state_machine_transitions :
    initialState.currentState = GameState.MENU ∧
    ∀ (g : GameSt) (i : Input),
      (frame g i).currentState = g.currentState ∨
      (g.currentState = GameState.MENU ∧ i.spacePressed = true ∧
        (frame g i).currentState = GameState.PLAYING) ∨
      (g.currentState = GameState.PLAYING ∧ (frame g i).collisionDetected = true ∧
        (frame g i).currentState = GameState.GAME_OVER) ∨
      (g.currentState = GameState.GAME_OVER ∧ i.rPressed = true ∧
        (frame g i).currentState = GameState.PLAYING) := by
  refine ⟨rfl, ?_⟩
  intro g i
  obtain ⟨p, a, cs, sc, hs, st, last, cd⟩ := g
  cases cs
  case MENU =>
    by_cases hsp : i.spacePressed = true
    · right; left
      refine ⟨rfl, hsp, ?_⟩
      simp [frame, hsp, resetRound]
    · left
      simp [frame, hsp]
  case PLAYING =>
    simp only [frame]
    split_ifs with hc
    · right; right; left
      simp_all
    · left
      rfl
  case GAME_OVER =>
    by_cases hr : i.rPressed = true
    · right; right; right
      refine ⟨rfl, hr, ?_⟩
      simp [frame, hr, resetRound]
    · left
      simp [frame, hr]

/-- C9: a frame processed in MENU or GAME_OVER either leaves the player,
the axe (positions and speeds) and the collision flag untouched, or, on
the start or restart trigger, performs exactly the explicit reset into
PLAYING; no motion and no collision evaluation happens in these
states. -/
theorem idle_frames_no_motion (g : GameSt) (i : Input)
    (h : g.currentState = GameState.MENU ∨ g.currentState = GameState.GAME_OVER) :
    ((frame g i).player = g.player ∧ (frame g i).axe = g.axe ∧
        (frame g i).collisionDetected = g.collisionDetected ∧
        (frame g i).currentState = g.currentState) ∨
    ((frame g i).currentState = GameState.PLAYING ∧
        (frame g i).player = { g.player with x := screenWidth / 2, y := screenHeight / 2 } ∧
        (frame g i).axe = { g.axe with x := 300, y := 0, speedX := 150, speedY := 200 } ∧
        (frame g i).score = 0 ∧ (frame g i).scoreTimer = 0 ∧
        (frame g i).lastSpeedIncreaseScore = 0 ∧
        (frame g i).collisionDetected = g.collisionDetected) := by
  obtain ⟨p, a, cs, sc, hs, st, last, cd⟩ := g
  dsimp only at h
  rcases h with h | h
  · subst h
    by_cases hsp : i.spacePressed = true
    · right
      simp [frame, hsp, resetRound]
    · left
      simp [frame, hsp]
  · subst h
    by_cases hr : i.rPressed = true
    · right
      simp [frame, hr, resetRound]
    · left
      simp [frame, hr]

/-- Witness for C9: a MENU frame without SPACE held changes nothing. -/
theorem idle_frames_no_motion_witness :
    (initialState.currentState = GameState.MENU ∨
      initialState.currentState = GameState.GAME_OVER) ∧
    (((frame initialState idleInput).player = initialState.player ∧
        (frame initialState idleInput).axe = initialState.axe ∧
        (frame initialState idleInput).collisionDetected =
          initialState.collisionDetected ∧
        (frame initialState idleInput).currentState = initialState.currentState) ∨
      ((frame initialState idleInput).currentState = GameState.PLAYING ∧
        (frame initialState idleInput).player =
          { initialState.player with x := screenWidth / 2, y := screenHeight / 2 } ∧
        (frame initialState idleInput).axe =
          { initialState.axe with x := 300, y := 0, speedX := 150, speedY := 200 } ∧
        (frame initialState idleInput).score = 0 ∧
        (frame initialState idleInput).scoreTimer = 0 ∧
        (frame initialState idleInput).lastSpeedIncreaseScore = 0 ∧
        (frame initialState idleInput).collisionDetected =
          initialState.collisionDetected)) :=
  ⟨Or.inl rfl, idle_frames_no_motion initialState idleInput (Or.inl rfl)⟩

/-- C7: the collision test (modelled from the spec because the raylib
routine it wraps is external) is, by construction, the clamp-to-nearest
point test with an inclusive comparison; it therefore returns true
whenever the circle center lies inside or exactly on the rectangle
boundary regardless of the radius, and it is invariant under reflecting
both inputs across either axis. -/
theorem checkCollision_props :
    (∀ cx cy r rx ry w h : ℚ,
        checkCollisionCircleRec cx cy r rx ry w h = true ↔
          (cx - max rx (min cx (rx + w))) * (cx - max rx (min cx (rx + w))) +
            (cy - max ry (min cy (ry + h))) * (cy - max ry (min cy (ry + h))) ≤
            r * r) ∧
    (∀ cx cy r rx ry w h : ℚ, rx ≤ cx → cx ≤ rx + w → ry ≤ cy → cy ≤ ry + h →
        checkCollisionCircleRec cx cy r rx ry w h = true) ∧
    (∀ cx cy r rx ry w h : ℚ, 0 ≤ w →
        checkCollisionCircleRec (-cx) cy r (-(rx + w)) ry w h =
          checkCollisionCircleRec cx cy r rx ry w h) ∧
    (∀ cx cy r rx ry w h : ℚ, 0 ≤ h →
        checkCollisionCircleRec cx (-cy) r rx (-(ry + h)) w h =
          checkCollisionCircleRec cx cy r rx ry w h) := by
  refine ⟨?_, ?_, ?_, ?_⟩
  · intro cx cy r rx ry w h
    simp [checkCollisionCircleRec]
  · intro cx cy r rx ry w h h1 h2 h3 h4
    simp only [checkCollisionCircleRec]
    rw [min_eq_left h2, max_eq_right h1, min_eq_left h4, max_eq_right h3]
    simp [mul_self_nonneg]
  · intro cx cy r rx ry w h hw
    simp only [checkCollisionCircleRec]
    rw [decide_eq_decide, neg_clamp rx w cx hw]
    have e : (-cx - -(max rx (min cx (rx + w)))) * (-cx - -(max rx (min cx (rx + w)))) =
        (cx - max rx (min cx (rx + w))) * (cx - max rx (min cx (rx + w))) := by
      ring
    rw [e]
  · intro cx cy r rx ry w h hh
    simp only [checkCollisionCircleRec]
    rw [decide_eq_decide, neg_clamp ry h cy hh]
    have e : (-cy - -(max ry (min cy (ry + h)))) * (-cy - -(max ry (min cy (ry + h)))) =
        (cy - max ry (min cy (ry + h))) * (cy - max ry (min cy (ry + h))) := by
      ring
    rw [e]

/-- Witness for C7: a center exactly on the left edge of the rectangle
collides even with radius zero. -/
theorem checkCollision_props_witness :
    (1 : ℚ) ≤ 1 ∧ (1 : ℚ) ≤ 1 + 4 ∧ (0 : ℚ) ≤ 2 ∧ (2 : ℚ) ≤ 0 + 4 ∧
    checkCollisionCircleRec 1 2 0 1 0 4 4 = true :=
  ⟨le_refl 1, by norm_num, by norm_num, by norm_num,
    checkCollision_props.2.1 1 2 0 1 0 4 4 (le_refl 1) (by norm_num)
      (by norm_num) (by norm_num)⟩

end AxeGame
